import Mathlib

/-!
Verification of the FTP file-synchronization engine of the
webflow_blog_generator repository.

The two source files embedded here are `src/modules/exporter.py`
(download direction: remote FTP tree → local export directory) and
`src/modules/ftp_importer.py` (upload direction: local output
directory → remote FTP tree).  Python loops become structural
recursion over lists, the mutable `self.stats` dictionary becomes an
explicitly threaded `SyncStats` record, filesystem / FTP side effects
become explicitly threaded finite maps, and exceptions become tagged
outcome values supplied as inputs (they model the environment's
behaviour at each operation).  Timestamps are integers, file sizes are
naturals.
-/

namespace FtpSync

/-! ### Constants (src/modules/exporter.py lines 26-32) -/

/-- `MAX_WORKERS = 5` -/
def MAX_WORKERS : Nat := 5

/-- `CHUNK_SIZE = 8192 * 8` (64 KiB chunks for large file downloads) -/
def CHUNK_SIZE : Nat := 8192 * 8

/-- `RETRY_COUNT = 3` -/
def RETRY_COUNT : Nat := 3

/-- `RETRY_DELAY = 2` (seconds) -/
def RETRY_DELAY : Nat := 2

/-- `LARGE_FILE_THRESHOLD = 10 * 1024 * 1024` (10 MiB) -/
def LARGE_FILE_THRESHOLD : Nat := 10 * 1024 * 1024

/-- `SUCCESS_RATE_THRESHOLD = 0.9`; the Python float `0.9` is modelled
as the rational `9/10`. -/
def SUCCESS_RATE_THRESHOLD : ℚ := 9 / 10

/-! ### Sync decisions

`FTPImporter._should_upload_file` (src/modules/ftp_importer.py lines
157-187).  The FTP/OS calls are modelled by their observable results:
`remote_exists` is the result of `ftp_host.path.exists(remote_file)`,
`local_mtime` is `some t` when `os.path.getmtime(local_file)` returns
`t` and `none` when it raises (the outer `except Exception` branch),
`remote_mtime` is `some t` when `ftp_host.path.getmtime(remote_file)`
returns `t` and `none` when it raises `FTPOSError`. -/

def should_upload_file (remote_exists : Bool) (local_mtime remote_mtime : Option Int) :
    Bool :=
  if remote_exists = false then true
  else
    match local_mtime with
    | none => true            -- error comparing file times: upload to be safe
    | some lt =>
      match remote_mtime with
      | none => true          -- FTPOSError getting the remote mtime: upload
      | some rt => if rt ≥ lt then false else true

/-- The exporter's inline freshness check
(src/modules/exporter.py lines 224-228):
`update_file = True; if local_file.exists(): local_time = getmtime(local);
 if local_time >= mod_time: update_file = False`.
`local_mtime` is `some t` when the local file exists with mtime `t`,
`none` when `local_file.exists()` is false. -/
def exporter_update_file (local_mtime : Option Int) (mod_time : Int) : Bool :=
  match local_mtime with
  | none => true
  | some lt => if lt ≥ mod_time then false else true

/-! ### Per-file retry loops

`_download_file_with_retry` (src/modules/exporter.py lines 323-369).
One loop iteration can end four ways, supplied by the environment `o`
per attempt index:
* `ok`        — the download ran and the size verification passed;
* `verifyFail`— the download ran but the file is missing/empty
                (the `else` branch at line 353: retry with NO sleep);
* `permError` — `ftplib.error_perm` was raised: `return False` at once;
* `transient` — any other exception: sleep `RETRY_DELAY * (attempt+1)`
                and retry, unless this was the last attempt.
The result is `(success, attempts made, sleeps performed in order)`. -/

inductive DlOutcome where
  | ok | verifyFail | permError | transient
deriving DecidableEq, Repr

def dlRetryGo (o : Nat → DlOutcome) : Nat → Nat → Bool × Nat × List Nat
  | _, 0 => (false, 0, [])
  | a, n + 1 =>
    match o a with
    | .ok => (true, 1, [])
    | .permError => (false, 1, [])
    | .verifyFail =>
      let r := dlRetryGo o (a + 1) n
      (r.1, r.2.1 + 1, r.2.2)
    | .transient =>
      if n = 0 then (false, 1, [])
      else
        let r := dlRetryGo o (a + 1) n
        (r.1, r.2.1 + 1, RETRY_DELAY * (a + 1) :: r.2.2)

def download_file_with_retry (o : Nat → DlOutcome) : Bool × Nat × List Nat :=
  dlRetryGo o 0 RETRY_COUNT

/-- `FTPImporter._upload_file` retry loop (src/modules/ftp_importer.py
lines 217-241), default arguments `retries=3, backoff_factor=2`.
The `while attempt < retries` loop catches every exception alike
(`except Exception`), so a permission error follows the same path as a
transient one; on failure `attempt += 1` and, unless `attempt >=
retries`, it sleeps `backoff_factor ** attempt`. -/

inductive UlOutcome where
  | ok | permError | transient
deriving DecidableEq, Repr

def ulRetryGo (o : Nat → UlOutcome) (retries backoff_factor : Nat) :
    Nat → Nat → Bool × Nat × List Nat
  | _, 0 => (false, 0, [])
  | a, n + 1 =>
    match o a with
    | .ok => (true, 1, [])
    | _ =>
      if n = 0 then (false, 1, [])
      else
        let r := ulRetryGo o retries backoff_factor (a + 1) n
        (r.1, r.2.1 + 1, backoff_factor ^ (a + 1) :: r.2.2)

def upload_file_retry (o : Nat → UlOutcome) : Bool × Nat × List Nat :=
  ulRetryGo o 3 2 0 3

/-! ### Remote / local file maps

The set of files on one side of a sync is modelled as an association
list from full path to modification time (sizes and contents are
carried separately where a claim needs them).  Writing a file prepends
an entry; lookup returns the most recent entry, so a prepend shadows
older entries exactly like overwriting the file does. -/

abbrev FileMap := List (String × Int)

def mapLookup : FileMap → String → Option Int
  | [], _ => none
  | (k, v) :: rest, key => if key = k then some v else mapLookup rest key

def mapInsert (m : FileMap) (k : String) (v : Int) : FileMap :=
  (k, v) :: m

/-- `os.path.join(d, n)` for the paths the sync engine builds
(no absolute-path second argument occurs). -/
def joinPath (d n : String) : String := d ++ "/" ++ n

/-! ### SyncStats

The importer's `self.stats` dictionary
(src/modules/ftp_importer.py line 47). -/

structure SyncStats where
  uploaded : Nat
  skipped : Nat
  failed : Nat
  dirs_created : Nat
deriving DecidableEq, Repr

def stats0 : SyncStats := ⟨0, 0, 0, 0⟩

/-! ### Observable events

Each FTP side effect of one import run, in the order the code performs
them: directory-walk steps, remote deletions done by
`_purge_remote_dir`, and `STOR` transfers attempted by
`_upload_file`. -/

inductive Ev where
  | scanDir (p : String)     -- os.walk yields a directory (line 302)
  | scanFile (p : String)    -- exporter scan examines a remote file
  | deleteFile (p : String)  -- ftp_host.remove(item_path) (line 150)
  | deleteDir (p : String)   -- ftp_host.rmdir(item_path) (line 147)
  | transfer (p : String)    -- a STOR/RETR for one task is attempted
deriving DecidableEq, Repr

def Ev.isDelete : Ev → Bool
  | .deleteFile _ => true
  | .deleteDir _ => true
  | _ => false

def Ev.isTransfer : Ev → Bool
  | .transfer _ => true
  | _ => false

/-! ### Upload phase (`FTPImporter._process_files`, `_process_directory`)

Per-file environment inputs: `prepOk = false` models the
`except`/`continue` branches of the first loop in `_process_files`
(lines 268-273: the file is dropped, counted nowhere); `uploadOk`
models whether `_upload_file` eventually returns `True` for the file
(its retry loop is verified separately above). -/

structure LocalFile where
  name : String
  mtime : Int
  prepOk : Bool
  uploadOk : Bool
deriving DecidableEq, Repr

/-- Outcome of `_ensure_remote_dir` (lines 109-131): the directory
already existed, it was created (`dirs_created += 1`), or creating it
failed (the walk `continue`s past the whole directory). -/
inductive EnsureOutcome where
  | existed | created | efailed
deriving DecidableEq, Repr

/-- One directory yielded by `os.walk` in `_process_directory`:
`remotePath` is the already-joined remote path for the directory
(the `remote_path` variable of lines 307-316). -/
structure LocalDir where
  remotePath : String
  ensure : EnsureOutcome
  files : List LocalFile
deriving DecidableEq, Repr

/-- First loop of `_process_files` (lines 256-273): build
`upload_tasks` in order and count `skipped`; decisions for the whole
directory are made against the remote state `m` as it was when the
directory's processing started (all decisions precede all uploads of
that directory).  Returns `(upload_tasks, skipped-increment)`. -/
def buildTasks (m : FileMap) (dirRemote : String) :
    List LocalFile → List LocalFile × Nat
  | [] => ([], 0)
  | f :: fs =>
    let r := buildTasks m dirRemote fs
    if f.prepOk = false then r
    else
      let rp := joinPath dirRemote f.name
      if should_upload_file (mapLookup m rp).isSome (some f.mtime) (mapLookup m rp) then
        (f :: r.1, r.2)
      else
        (r.1, r.2 + 1)

/-- Second loop of `_process_files` (lines 277-284): upload each task;
a successful `STOR` materialises the file remotely with the upload
time `now` as its new remote mtime.  Returns
`(remote-after, uploaded-increment, failed-increment, events)`. -/
def runTasks (now : Int) (m : FileMap) (dirRemote : String) :
    List LocalFile → FileMap × Nat × Nat × List Ev
  | [] => (m, 0, 0, [])
  | f :: fs =>
    let rp := joinPath dirRemote f.name
    if f.uploadOk then
      let r := runTasks now (mapInsert m rp now) dirRemote fs
      (r.1, r.2.1 + 1, r.2.2.1, Ev.transfer rp :: r.2.2.2)
    else
      let r := runTasks now m dirRemote fs
      (r.1, r.2.1, r.2.2.1 + 1, Ev.transfer rp :: r.2.2.2)

/-- `_process_files` (lines 243-284). -/
def process_files (now : Int) (m : FileMap) (st : SyncStats) (dirRemote : String)
    (files : List LocalFile) : FileMap × SyncStats × List Ev :=
  let b := buildTasks m dirRemote files
  let r := runTasks now m dirRemote b.1
  (r.1,
   { st with
      uploaded := st.uploaded + r.2.1
      skipped := st.skipped + b.2
      failed := st.failed + r.2.2.1 },
   r.2.2.2)

/-- `_process_directory` (lines 286-323), with `preserve_parent =
False` as used by `import_website`: walk the directories in order; for
each one, ensure the remote directory (skipping the directory's files
when that fails) and process its files. -/
def process_directory (now : Int) (m : FileMap) (st : SyncStats) :
    List LocalDir → FileMap × SyncStats × List Ev
  | [] => (m, st, [])
  | d :: ds =>
    match d.ensure with
    | .efailed =>
      let r := process_directory now m st ds
      (r.1, r.2.1, Ev.scanDir d.remotePath :: r.2.2)
    | .existed =>
      let p := process_files now m st d.remotePath d.files
      let r := process_directory now p.1 p.2.1 ds
      (r.1, r.2.1, Ev.scanDir d.remotePath :: (p.2.2 ++ r.2.2))
    | .created =>
      let p := process_files now m
        { st with dirs_created := st.dirs_created + 1 } d.remotePath d.files
      let r := process_directory now p.1 p.2.1 ds
      (r.1, r.2.1, Ev.scanDir d.remotePath :: (p.2.2 ++ r.2.2))

/-! ### Remote directory tree and `_purge_remote_dir`

`_purge_remote_dir` (src/modules/ftp_importer.py lines 133-155) walks
`listdir(remote_dir)`; directories are purged recursively and then
removed with `rmdir`, plain files are removed with `remove`.  Any
failing deletion raises and the exception propagates (the `except`
logs and re-raises), so siblings after the failing entry are left
untouched.  `deleteFails` is the environment input saying whether the
FTP deletion of that entry raises. -/

mutual
inductive RNode where
  | file (name : String) (mtime : Int) (deleteFails : Bool)
  | dir (name : String) (children : RForest) (deleteFails : Bool)
deriving DecidableEq, Repr
inductive RForest where
  | nil
  | cons (hd : RNode) (tl : RForest)
deriving DecidableEq, Repr
end

/-! The flat file view of a remote tree rooted at `base`
(paths as `_should_upload_file` / `_upload_file` would address them,
built with `os.path.join` from the base directory). -/
mutual
def flattenNode (base : String) : RNode → FileMap
  | .file n mt _ => [(joinPath base n, mt)]
  | .dir n cs _ => flattenForest (joinPath base n) cs
def flattenForest (base : String) : RForest → FileMap
  | .nil => []
  | .cons x xs => flattenNode base x ++ flattenForest base xs
end

/-! Purge one entry: `(remaining entry if any, succeeded, deletions performed)`. -/
mutual
def purgeNode (base : String) : RNode → Option RNode × Bool × List Ev
  | .file n mt fd =>
    if fd then (some (.file n mt fd), false, [])
    else (none, true, [Ev.deleteFile (joinPath base n)])
  | .dir n cs fd =>
    let r := purgeForest (joinPath base n) cs
    match r with
    | (cs', true, evs) =>
      if fd then (some (.dir n cs' fd), false, evs)
      else (none, true, evs ++ [Ev.deleteDir (joinPath base n)])
    | (cs', false, evs) => (some (.dir n cs' fd), false, evs)
def purgeForest (base : String) : RForest → RForest × Bool × List Ev
  | .nil => (.nil, true, [])
  | .cons x xs =>
    match purgeNode base x with
    | (none, _, evs) =>
      let r := purgeForest base xs
      (r.1, r.2.1, evs ++ r.2.2)
    | (some x', _, evs) => (.cons x' xs, false, evs)
end

/-! ### `FTPImporter.import_website` (lines 325-397)

Environment inputs: `remoteExists` is `ftp_host.path.exists(remote_dir)`
(line 372); when false the directory is created and the run proceeds
over an empty remote (no purge is attempted — the `elif` at line 375).
When the purge raises, the surrounding `except` (line 395) returns
`False` before any directory is processed; the stats printed there are
the freshly initialised zeros.  After the walk, the method returns
`self.stats["failed"] == 0` (line 393).  The Python default for
`purge_remote` is `False`; it is passed explicitly here and the claims
about the default refer to that source default. -/

structure ImportResult where
  success : Bool
  stats : SyncStats
  events : List Ev
  remote : FileMap
deriving DecidableEq, Repr

def import_website_run (now : Int) (remoteExists : Bool) (base : String)
    (tree : RForest) (dirs : List LocalDir) (purge_remote : Bool) : ImportResult :=
  if remoteExists = false then
    -- makedirs(remote_dir): the remote subtree starts empty
    let r := process_directory now [] stats0 dirs
    ⟨r.2.1.failed == 0, r.2.1, r.2.2, r.1⟩
  else if purge_remote then
    match purgeForest base tree with
    | (partialTree, false, evs) =>
      -- the purge raised: `except` returns False; nothing was uploaded,
      -- already-performed deletions are not rolled back
      ⟨false, stats0, evs, flattenForest base partialTree⟩
    | (_, true, evs) =>
      let r := process_directory now [] stats0 dirs
      ⟨r.2.1.failed == 0, r.2.1, evs ++ r.2.2, r.1⟩
  else
    let r := process_directory now (flattenForest base tree) stats0 dirs
    ⟨r.2.1.failed == 0, r.2.1, r.2.2, r.1⟩

/-! ### Exporter: `_sequential_scan_parallel_download`
(src/modules/exporter.py lines 156-320)

The remote tree is given as the flat, walk-ordered list of files the
scan visits, each with the path the scan builds, its size and its
mtime (sizes and mtimes retrievable; the `except` at line 233 that
drops a file whose stat fails is outside every claim).  A download
task is the tuple `(remote_file, str(local_file), file_size)` of line
232; the local path mirrors the relative remote path. -/

structure RemoteEntry where
  path : String
  size : Nat
  mtime : Int
deriving DecidableEq, Repr

structure DlTask where
  remote_path : String
  local_path : String
  size : Nat
deriving DecidableEq, Repr

/-- The scan loop (lines 196-234): one pass over all remote files,
filtering with the freshness check and counting the rest as skipped
(`len(file_cache) - len(download_tasks)` at line 308).
Returns `(download_tasks in scan order, skipped count)`. -/
def scan_download_tasks (localM : FileMap) : List RemoteEntry → List DlTask × Nat
  | [] => ([], 0)
  | e :: rest =>
    let r := scan_download_tasks localM rest
    if exporter_update_file (mapLookup localM e.path) e.mtime then
      (⟨e.path, e.path, e.size⟩ :: r.1, r.2)
    else (r.1, r.2 + 1)

/-- `download_tasks.sort(key=lambda x: x[2])` (line 242): a stable
sort ascending by size. -/
def sort_download_tasks (ts : List DlTask) : List DlTask :=
  ts.mergeSort (fun a b => decide (a.size ≤ b.size))

/-- The parallel download phase (lines 245-301).  Tasks are submitted
in sorted order; each worker result is a Bool (`_download_file_with_retry`
or False on a connection error), supplied by the environment `okOf`.
Futures complete in nondeterministic order, but the tallies of lines
287-295 are order-independent, so they are computed in submission
order here.  A successful download writes the local file (mtime = the
write time `now`). -/
def run_download_tasks (now : Int) (okOf : DlTask → Bool) (localM : FileMap) :
    List DlTask → FileMap × Nat × Nat × List Ev
  | [] => (localM, 0, 0, [])
  | t :: ts =>
    if okOf t then
      let r := run_download_tasks now okOf (mapInsert localM t.local_path now) ts
      (r.1, r.2.1 + 1, r.2.2.1, Ev.transfer t.remote_path :: r.2.2.2)
    else
      let r := run_download_tasks now okOf localM ts
      (r.1, r.2.1, r.2.2.1 + 1, Ev.transfer t.remote_path :: r.2.2.2)

/-- The final success computation (lines 303-316).  When
`download_tasks` is nonempty, `total_tasks = len(download_tasks) > 0`
always holds, so the function returns
`success_rate >= SUCCESS_RATE_THRESHOLD` (line 315) and the
`return True` at line 316 is unreachable.  When `download_tasks` is
empty, `successful_downloads` was never assigned (it is initialised
inside `if download_tasks:` at line 251), so the summary logging at
line 306 raises `NameError`, the `except` at line 318 catches it and
the function returns `False`. -/
def export_overall_success (successful total_tasks : Nat) : Bool :=
  if total_tasks = 0 then false
  else decide ((successful : ℚ) / (total_tasks : ℚ) ≥ SUCCESS_RATE_THRESHOLD)

structure ExportRunResult where
  success : Bool
  transferred : Nat
  failedCount : Nat
  skippedCount : Nat
  totalTasks : Nat
  localAfter : FileMap
  events : List Ev
deriving Repr

/-- `export_website` for a non-dry run (src/modules/exporter.py lines
52-95 composed with `_download_website_content` and
`_sequential_scan_parallel_download`).  Lines 56-59 delete the whole
pre-existing export directory and recreate it empty
(`if export_dir.exists(): shutil.rmtree(export_dir);
export_dir.mkdir(parents=True)`), so the scan diffs the remote tree
against an empty local tree regardless of `localBefore`. -/
def export_run (now : Int) (remote : List RemoteEntry) (localBefore : FileMap)
    (okOf : DlTask → Bool) : ExportRunResult :=
  let _ := localBefore   -- destroyed by the rmtree before scanning
  let wiped : FileMap := []
  let s := scan_download_tasks wiped remote
  let sorted := sort_download_tasks s.1
  let r := run_download_tasks now okOf wiped sorted
  ⟨export_overall_success r.2.1 sorted.length, r.2.1, r.2.2.1, s.2, sorted.length,
   r.1, remote.map (fun e => Ev.scanFile e.path) ++ r.2.2.2⟩

/-! ### Large-file download with file contents
(`_download_file_with_retry` + `_download_large_file`,
src/modules/exporter.py lines 323-415)

This model tracks the local file's byte content through one task, in
an environment where every FTP call succeeds (no exceptions; the
exception paths are the `DlOutcome` model above).
`_download_large_file` first executes
`open(local_file, "wb")` — creating/truncating the local file, whose
mtime becomes the current time `now` — and then calls
`ftp_host.download_if_newer(remote_file, local_file)`, which copies
only when the local target is missing or older than the remote source.
The chunked `RETR` fallback (64 KiB `conn.recv(CHUNK_SIZE)` loop,
lines 389-411) runs only when `download_if_newer` raises, which it
does not in this exception-free environment. -/

structure RemoteFileC where
  content : List Nat
  mtime : Int
deriving DecidableEq, Repr

structure LocalFileState where
  content : List Nat
  mtime : Int
deriving DecidableEq, Repr

/-- `ftputil.FTPHost.download_if_newer(source, target)`: copy iff the
target does not exist or the source mtime is newer than the target
mtime. -/
def download_if_newer_model (now : Int) (remote : RemoteFileC) :
    Option LocalFileState → Option LocalFileState
  | none => some ⟨remote.content, now⟩
  | some lf => if remote.mtime > lf.mtime then some ⟨remote.content, now⟩ else some lf

/-- `_download_large_file` (lines 372-415): truncate/create the local
file (`open(local_file, "wb")`), then `download_if_newer`. -/
def download_large_file_model (now : Int) (remote : RemoteFileC)
    (lf : Option LocalFileState) : Option LocalFileState :=
  let _ := lf   -- whatever was there is truncated by open(..., "wb")
  download_if_newer_model now remote (some ⟨[], now⟩)

/-- One loop body of `_download_file_with_retry` (lines 343-348):
chunk path above the threshold, plain `ftp_host.download` below it. -/
def download_attempt_model (now : Int) (remote : RemoteFileC) (file_size : Nat)
    (lf : Option LocalFileState) : Option LocalFileState :=
  if file_size > LARGE_FILE_THRESHOLD then download_large_file_model now remote lf
  else some ⟨remote.content, now⟩

/-- The verification at line 351:
`os.path.exists(local_file) and os.path.getsize(local_file) > 0`. -/
def verify_nonempty : Option LocalFileState → Bool
  | none => false
  | some lf => decide (0 < lf.content.length)

/-- The `for attempt in range(RETRY_COUNT)` loop with contents: a
failed verification retries (no exception is raised in this
environment, so the loop just comes around); the loop running out
returns `False` (line 369). -/
def download_retry_content (now : Int) (remote : RemoteFileC) (file_size : Nat) :
    Nat → Option LocalFileState → Bool × Option LocalFileState
  | 0, lf => (false, lf)
  | n + 1, lf =>
    let lf' := download_attempt_model now remote file_size lf
    if verify_nonempty lf' then (true, lf')
    else download_retry_content now remote file_size n lf'

def download_file_content_run (now : Int) (remote : RemoteFileC) (file_size : Nat) :
    Bool × Option LocalFileState :=
  download_retry_content now remote file_size RETRY_COUNT none

/-! ### Counting helpers and concrete run data -/

/-- Total number of files the local walk yields. -/
def totalFiles : List LocalDir → Nat
  | [] => 0
  | d :: ds => d.files.length + totalFiles ds

/-- Number of walked files whose per-file preparation completes
without raising, inside directories whose `_ensure_remote_dir`
succeeded — exactly the files `_process_files` places in one of its
three buckets. -/
def consideredFiles : List LocalDir → Nat
  | [] => 0
  | d :: ds =>
    (if d.ensure = EnsureOutcome.efailed then 0
     else (d.files.filter (fun f => f.prepOk)).length) + consideredFiles ds

/-- A run in which the environment misbehaves nowhere: every remote
directory can be ensured, no per-file preparation raises, and every
attempted upload eventually succeeds. -/
def allSmooth (dirs : List LocalDir) : Prop :=
  ∀ d ∈ dirs, d.ensure ≠ EnsureOutcome.efailed ∧
    ∀ f ∈ d.files, f.prepOk = true ∧ f.uploadOk = true

instance : DecidablePred allSmooth := fun dirs => by
  unfold allSmooth; infer_instance

/-- An upload run of 20 fresh files in one directory where exactly the
file named `7` fails to upload. -/
def cexFiles20 : List LocalFile :=
  (List.range 20).map (fun i => ⟨toString i, 0, true, i != 7⟩)

def cexDirs20 : List LocalDir := [⟨"site", .existed, cexFiles20⟩]

/-- A download run of 20 equally-sized remote files where exactly the
file named `7` fails to download. -/
def remote20 : List RemoteEntry :=
  (List.range 20).map (fun i => ⟨toString i, 1, 0⟩)

def okOf20 : DlTask → Bool := fun t => t.remote_path != "7"

/-- All download tasks succeed. -/
def okAll : DlTask → Bool := fun _ => true

/-- One remote file, for the double-export run. -/
def cexRemote1 : List RemoteEntry := [⟨"idx", 1, 0⟩]

/-- Two walked directories with one fresh file each, to observe the
upload interleaving of `_process_directory`. -/
def cexWalkDirs : List LocalDir :=
  [⟨"d1", .existed, [⟨"a", 0, true, true⟩]⟩,
   ⟨"d2", .existed, [⟨"b", 0, true, true⟩]⟩]

/-- One walked file whose preparation raises. -/
def cexPrepDirs : List LocalDir := [⟨"site", .existed, [⟨"f", 0, false, true⟩]⟩]

/-- A remote file one byte above the 10 MiB chunking threshold. -/
def bigContent : List Nat := List.replicate (LARGE_FILE_THRESHOLD + 1) 0

/-- A remote tree of three files in which deleting `b` fails. -/
def wTree1 : RForest :=
  .cons (.file "a" 0 false) (.cons (.file "b" 0 true) (.cons (.file "c" 0 false) .nil))

/-- A remote tree of one deletable file. -/
def wTree2 : RForest := .cons (.file "x" 0 false) .nil

/-- One local directory with one fresh file, for purge-run witnesses. -/
def wDirs : List LocalDir := [⟨"h/site", .existed, [⟨"a", 3, true, true⟩]⟩]

/-- A tree whose flat view equals the remote map produced by uploading
`wDirs` at time 5 onto an empty remote. -/
def wTree3 : RForest :=
  .cons (.dir "site" (.cons (.file "a" 5 false) .nil) false) .nil

/-- One walked directory with one fresh file. -/
def wD1 : LocalDir := ⟨"d1", .existed, [⟨"a", 0, true, true⟩]⟩

/-! ## Theorems -/

/-- C2: For all inputs (exists, local mtime, remote mtime), the sync
decision returns false (skip) iff the destination file exists and its
modification time is ≥ the source's; in every other case, including a
modification time that cannot be determined, it returns true
(transfer).  For the upload direction (`_should_upload_file`) the
destination is the remote file and the source the local file; for the
download direction (the exporter's inline check) the destination is
the local file and the source the remote file. -/
theorem sync_decision_skip_iff (de : Bool) (sm dm lm : Option Int) (rt : Int) :
    (should_upload_file de sm dm = false ↔
      de = true ∧ ∃ s d, sm = some s ∧ dm = some d ∧ s ≤ d) ∧
    (exporter_update_file lm rt = false ↔ ∃ l, lm = some l ∧ rt ≤ l) := by
  constructor
  · cases de <;> rcases sm with _ | s <;> rcases dm with _ | d <;>
      simp [should_upload_file]
  · rcases lm with _ | l <;> simp [exporter_update_file]

/-- C4: a transfer failing with transient errors is attempted at most
3 times in both directions, and the i-th backoff sleep equals the base
delay times `2 ^ i`: the exporter sleeps `RETRY_DELAY * (attempt+1)`,
which on the attempts that can sleep (0 and 1) equals
`RETRY_DELAY * 2 ^ attempt`, and the importer sleeps
`backoff_factor ** attempt = 2 * 2 ^ (attempt-1)` for the 1-based
attempt counter, i.e. base 2 times `2 ^ i` for the i-th sleep. -/
theorem transient_retry_backoff (o : Nat → DlOutcome) (u : Nat → UlOutcome)
    (ho : ∀ i, o i = DlOutcome.ok ∨ o i = DlOutcome.transient)
    (hu : ∀ i, u i = UlOutcome.ok ∨ u i = UlOutcome.transient) :
    (download_file_with_retry o).2.1 ≤ 3 ∧
    (download_file_with_retry o).2.2 =
      (List.range (download_file_with_retry o).2.2.length).map
        (fun i => RETRY_DELAY * 2 ^ i) ∧
    (upload_file_retry u).2.1 ≤ 3 ∧
    (upload_file_retry u).2.2 =
      (List.range (upload_file_retry u).2.2.length).map (fun i => 2 * 2 ^ i) := by
  rcases ho 0 with h0 | h0 <;> rcases ho 1 with h1 | h1 <;> rcases ho 2 with h2 | h2 <;>
    rcases hu 0 with g0 | g0 <;> rcases hu 1 with g1 | g1 <;> rcases hu 2 with g2 | g2 <;>
      simp [download_file_with_retry, upload_file_retry, dlRetryGo, ulRetryGo,
        RETRY_COUNT, RETRY_DELAY, h0, h1, h2, g0, g1, g2, List.range_succ]

theorem transient_retry_backoff_witness :
    (download_file_with_retry (fun _ => DlOutcome.transient)).2.1 ≤ 3 ∧
    (download_file_with_retry (fun _ => DlOutcome.transient)).2.2 =
      (List.range
        (download_file_with_retry (fun _ => DlOutcome.transient)).2.2.length).map
        (fun i => RETRY_DELAY * 2 ^ i) ∧
    (upload_file_retry (fun _ => UlOutcome.transient)).2.1 ≤ 3 ∧
    (upload_file_retry (fun _ => UlOutcome.transient)).2.2 =
      (List.range
        (upload_file_retry (fun _ => UlOutcome.transient)).2.2.length).map
        (fun i => 2 * 2 ^ i) :=
  transient_retry_backoff (fun _ => DlOutcome.transient) (fun _ => UlOutcome.transient)
    (fun _ => Or.inr rfl) (fun _ => Or.inr rfl)

/-- C5 counterexample: in the upload direction a permission-denied
error is caught by the generic `except Exception` of `_upload_file`,
so a permanently failing `STOR` is attempted 3 times with backoff
sleeps 2 and 4 — not returned as a permanent failure after the first
attempt. -/
theorem upload_perm_error_retried_cex :
    upload_file_retry (fun _ => UlOutcome.permError) = (false, 3, [2, 4]) := rfl

/-- C5 amended: only the download direction surfaces permission
errors immediately: whenever `_download_file_with_retry` reaches an
attempt that raises `ftplib.error_perm` it returns failure at once,
with no further attempt and no sleep; the upload direction retries a
permission error like any other exception, 3 attempts with backoff
sleeps 2 and 4. -/
theorem perm_error_immediate_download_only (o : Nat → DlOutcome) (j n : Nat)
    (h : o j = DlOutcome.permError) :
    dlRetryGo o j (n + 1) = (false, 1, []) ∧
    download_file_with_retry (fun _ => DlOutcome.permError) = (false, 1, []) ∧
    upload_file_retry (fun _ => UlOutcome.permError) = (false, 3, [2, 4]) :=
  ⟨by simp [dlRetryGo, h], rfl, rfl⟩

theorem perm_error_immediate_download_only_witness :
    dlRetryGo (fun _ => DlOutcome.permError) 0 (2 + 1) = (false, 1, []) ∧
    download_file_with_retry (fun _ => DlOutcome.permError) = (false, 1, []) ∧
    upload_file_retry (fun _ => UlOutcome.permError) = (false, 3, [2, 4]) :=
  perm_error_immediate_download_only (fun _ => DlOutcome.permError) 0 2 rfl

/-- C6: evaluation of `_download_file_with_retry` at a file one byte
above the 10 MiB threshold, in an environment where every FTP call
succeeds.  `_download_large_file` truncates the local file with
`open(local_file, "wb")` and then calls `download_if_newer`, which
skips the copy because the just-created local file (mtime 1000) is
newer than the remote file (mtime 100); the chunked fallback never
runs, the verification `getsize > 0` fails on the 0-byte file, and
after 3 attempts the transfer fails with an empty local file — while a
small file in the same environment arrives byte-for-byte identical. -/
theorem large_file_download_truncates_and_fails :
    bigContent.length = LARGE_FILE_THRESHOLD + 1 ∧
    download_file_content_run 1000 ⟨bigContent, 100⟩ (LARGE_FILE_THRESHOLD + 1) =
      (false, some ⟨[], 1000⟩) ∧
    download_file_content_run 1000 ⟨[7, 8, 9], 100⟩ 3 =
      (true, some ⟨[7, 8, 9], 1000⟩) := by
  refine ⟨by simp [bigContent], ?_, rfl⟩
  simp [download_file_content_run, RETRY_COUNT, download_retry_content,
    download_attempt_model, download_large_file_model, download_if_newer_model,
    verify_nonempty, LARGE_FILE_THRESHOLD]

/-- C10: a non-dry-run export deletes the whole pre-existing local
export directory and recreates it empty before scanning
(`shutil.rmtree` + `mkdir` at exporter.py lines 56-59): the run result
does not depend on the pre-existing local tree at all, and the scan
consequently finds every remote file stale (all become download tasks,
none skipped). -/
theorem export_wipes_destination (now : Int) (remote : List RemoteEntry)
    (localBefore : FileMap) (okOf : DlTask → Bool) :
    export_run now remote localBefore okOf = export_run now remote [] okOf ∧
    (scan_download_tasks [] remote).1 =
      remote.map (fun e => ⟨e.path, e.path, e.size⟩) ∧
    (scan_download_tasks [] remote).2 = 0 := by
  refine ⟨rfl, ?_, ?_⟩ <;>
    induction remote <;>
      simp_all [scan_download_tasks, exporter_update_file, mapLookup]

/-- The float comparison `float(successful)/float(total) >= 0.9` of
exporter.py line 312/315, as a Nat inequality (for the magnitudes that
occur, float and rational comparison agree). -/
theorem export_overall_success_iff (s t : Nat) (h : 0 < t) :
    export_overall_success s t = true ↔ 10 * s ≥ 9 * t := by
  unfold export_overall_success SUCCESS_RATE_THRESHOLD
  rw [if_neg (by omega), decide_eq_true_eq, ge_iff_le,
    div_le_div_iff₀ (by norm_num) (by exact_mod_cast h)]
  constructor
  · intro hq
    have h' : (9 : ℚ) * t ≤ 10 * s := by linarith
    exact_mod_cast h'
  · intro hn
    have h' : (9 : ℚ) * t ≤ 10 * s := by exact_mod_cast hn
    linarith

/-- C1 counterexample: an upload sync of 20 fresh equally-sized files
in which exactly one `STOR` fails permanently.  `import_website`
returns `self.stats["failed"] == 0` (ftp_importer.py line 393), so the
run reports `success = false` even though 19/20 = 0.95 ≥ 0.9 of the
dispatched tasks succeeded; the claim's "in either direction" fails
for the upload direction. -/
theorem upload_success_is_not_rate_based_cex :
    (import_website_run 50 true "h" RForest.nil cexDirs20 false).stats.uploaded = 19 ∧
    (import_website_run 50 true "h" RForest.nil cexDirs20 false).stats.failed = 1 ∧
    (import_website_run 50 true "h" RForest.nil cexDirs20 false).success = false :=
  ⟨rfl, rfl, rfl⟩

unseal List.merge List.mergeSort in
/-- C1 amended: only the download direction applies the 90%
success-rate policy: with at least one dispatched task the export is
reported successful iff `successful/total ≥ 0.9` (equivalently
`10·successful ≥ 9·total`), and in particular 1 failure among 20
equally-sized downloads yields `success = true` with `failed = 1`;
the upload direction instead reports success iff `failed == 0`. -/
theorem success_rate_policy (s t : Nat) (h : 0 < t) (now : Int) (re : Bool)
    (base : String) (tree : RForest) (dirs : List LocalDir) :
    (export_overall_success s t = true ↔ 10 * s ≥ 9 * t) ∧
    ((export_run 100 remote20 [] okOf20).success = true ∧
      (export_run 100 remote20 [] okOf20).failedCount = 1 ∧
      (export_run 100 remote20 [] okOf20).totalTasks = 20) ∧
    (import_website_run now re base tree dirs false).success =
      ((import_website_run now re base tree dirs false).stats.failed == 0) := by
  refine ⟨export_overall_success_iff s t h, ⟨?_, rfl, rfl⟩, ?_⟩
  · have h1 : (export_run 100 remote20 [] okOf20).success =
        export_overall_success 19 20 := rfl
    rw [h1]
    exact (export_overall_success_iff 19 20 (by norm_num)).mpr (by norm_num)
  · cases re <;> simp [import_website_run]

theorem success_rate_policy_witness :
    ((export_overall_success 19 20 = true ↔ 10 * 19 ≥ 9 * 20) ∧
      ((export_run 100 remote20 [] okOf20).success = true ∧
        (export_run 100 remote20 [] okOf20).failedCount = 1 ∧
        (export_run 100 remote20 [] okOf20).totalTasks = 20) ∧
      (import_website_run 0 true "h" RForest.nil cexWalkDirs false).success =
        ((import_website_run 0 true "h" RForest.nil cexWalkDirs false).stats.failed == 0)) :=
  success_rate_policy 19 20 (by norm_num) 0 true "h" RForest.nil cexWalkDirs

/-! ### Counting lemmas for the importer's stats -/

theorem buildTasks_count (m : FileMap) (dp : String) (fs : List LocalFile) :
    (buildTasks m dp fs).1.length + (buildTasks m dp fs).2 =
      (fs.filter (fun f => f.prepOk)).length := by
  induction fs with
  | nil => rfl
  | cons f fs ih =>
    have hih := ih
    simp only [buildTasks, List.filter_cons]
    cases hp : f.prepOk
    · simpa using hih
    · simp only [Bool.true_eq_false, if_false, if_true, reduceIte]
      split <;> simp only [List.length_cons] <;> omega

theorem runTasks_count (now : Int) (dp : String) (ts : List LocalFile) :
    ∀ m : FileMap,
      (runTasks now m dp ts).2.1 + (runTasks now m dp ts).2.2.1 = ts.length := by
  induction ts with
  | nil => intro m; rfl
  | cons f fs ih =>
    intro m
    simp only [runTasks]
    split <;> simp only [List.length_cons] <;>
      [have := ih (mapInsert m (joinPath dp f.name) now); have := ih m] <;> omega

theorem process_files_count (now : Int) (m : FileMap) (st : SyncStats)
    (dp : String) (files : List LocalFile) :
    (process_files now m st dp files).2.1.uploaded +
      (process_files now m st dp files).2.1.skipped +
      (process_files now m st dp files).2.1.failed =
    st.uploaded + st.skipped + st.failed +
      (files.filter (fun f => f.prepOk)).length := by
  have h1 := buildTasks_count m dp files
  have h2 := runTasks_count now dp (buildTasks m dp files).1 m
  simp only [process_files]
  omega

theorem process_directory_count (now : Int) (dirs : List LocalDir) :
    ∀ (m : FileMap) (st : SyncStats),
      (process_directory now m st dirs).2.1.uploaded +
        (process_directory now m st dirs).2.1.skipped +
        (process_directory now m st dirs).2.1.failed =
      st.uploaded + st.skipped + st.failed + consideredFiles dirs := by
  induction dirs with
  | nil => intro m st; rfl
  | cons d ds ih =>
    intro m st
    cases hens : d.ensure <;>
      simp only [process_directory, hens, consideredFiles, reduceCtorEq, if_false,
        if_true, reduceIte]
    · have h1 := process_files_count now m st d.remotePath d.files
      have h2 := ih (process_files now m st d.remotePath d.files).1
        (process_files now m st d.remotePath d.files).2.1
      omega
    · have h1 := process_files_count now m
        { st with dirs_created := st.dirs_created + 1 } d.remotePath d.files
      have h2 := ih
        (process_files now m { st with dirs_created := st.dirs_created + 1 }
          d.remotePath d.files).1
        (process_files now m { st with dirs_created := st.dirs_created + 1 }
          d.remotePath d.files).2.1
      have e1 : ({ st with dirs_created := st.dirs_created + 1 } : SyncStats).uploaded
          = st.uploaded := rfl
      have e2 : ({ st with dirs_created := st.dirs_created + 1 } : SyncStats).skipped
          = st.skipped := rfl
      have e3 : ({ st with dirs_created := st.dirs_created + 1 } : SyncStats).failed
          = st.failed := rfl
      rw [e1, e2, e3] at h1
      omega
    · have h2 := ih m st
      omega

/-- C9 counterexample: a walked file whose preparation raises (the
`except ... continue` at ftp_importer.py lines 268-273) is counted in
no bucket: one scanned file, yet `uploaded + skipped + failed = 0`. -/
theorem dropped_file_not_counted_cex :
    (import_website_run 0 true "h" RForest.nil cexPrepDirs false).stats.uploaded +
      (import_website_run 0 true "h" RForest.nil cexPrepDirs false).stats.skipped +
      (import_website_run 0 true "h" RForest.nil cexPrepDirs false).stats.failed = 0 ∧
    totalFiles cexPrepDirs = 1 := ⟨rfl, rfl⟩

/-- C9 amended: at completion of a sync, `uploaded + skipped + failed`
equals the number of walked files whose per-file preparation completed
without raising, within directories whose remote-directory creation
succeeded; files dropped by a preparation exception, and all files of
a directory whose `_ensure_remote_dir` failed, are counted in no
bucket. -/
theorem stats_partition (now : Int) (re : Bool) (base : String) (tree : RForest)
    (dirs : List LocalDir) :
    (import_website_run now re base tree dirs false).stats.uploaded +
      (import_website_run now re base tree dirs false).stats.skipped +
      (import_website_run now re base tree dirs false).stats.failed =
    consideredFiles dirs := by
  have h1 := process_directory_count now dirs [] stats0
  have h2 := process_directory_count now dirs (flattenForest base tree) stats0
  cases re <;> simp [import_website_run, stats0] at h1 h2 ⊢ <;> omega

/-! ### Event-trace lemmas -/

theorem runTasks_events_transfer (now : Int) (dp : String) (ts : List LocalFile) :
    ∀ m : FileMap, ∀ e ∈ (runTasks now m dp ts).2.2.2, e.isTransfer = true := by
  induction ts with
  | nil => intro m e he; simp [runTasks] at he
  | cons f fs ih =>
    intro m e he
    cases hu : f.uploadOk <;> simp only [runTasks, hu, Bool.false_eq_true, if_false,
        if_true, reduceIte, List.mem_cons] at he <;>
      rcases he with rfl | he <;> first
        | rfl
        | exact ih _ e he

theorem run_download_tasks_events_transfer (now : Int) (okOf : DlTask → Bool)
    (ts : List DlTask) :
    ∀ m : FileMap, ∀ e ∈ (run_download_tasks now okOf m ts).2.2.2,
      e.isTransfer = true := by
  induction ts with
  | nil => intro m e he; simp [run_download_tasks] at he
  | cons t fs ih =>
    intro m e he
    cases hu : okOf t <;> simp only [run_download_tasks, hu, Bool.false_eq_true,
        if_false, if_true, reduceIte, List.mem_cons] at he <;>
      rcases he with rfl | he <;> first
        | rfl
        | exact ih _ e he

theorem sort_download_tasks_sorted (ts : List DlTask) :
    (sort_download_tasks ts).Pairwise (fun a b => a.size ≤ b.size) ∧
    (sort_download_tasks ts).Perm ts := by
  constructor
  · have h := @List.sorted_mergeSort DlTask
      (fun a b : DlTask => decide (a.size ≤ b.size))
      (fun a b c h1 h2 => by
        simp only [decide_eq_true_eq] at h1 h2 ⊢; omega)
      (fun a b => by simpa using Nat.le_total a.size b.size) ts
    exact h.imp (fun hab => of_decide_eq_true hab)
  · exact List.mergeSort_perm ts _

/-- C7 counterexample: for the upload direction, `_process_directory`
uploads each directory's files as soon as `os.walk` yields the
directory: with two directories of one fresh file each, the first
file's `STOR` happens before the second directory is scanned, so a
transfer begins before the complete task list of the sync is known
(and no size ordering is applied at all). -/
theorem upload_transfers_during_walk_cex :
    (import_website_run 5 true "h" RForest.nil cexWalkDirs false).events =
      [Ev.scanDir "d1", Ev.transfer "d1/a", Ev.scanDir "d2", Ev.transfer "d2/b"] := rfl

/-- C7 amended: the download direction is a strict two-phase barrier —
the export's event trace is all scan events followed by all transfer
events, and the dispatched list is a permutation of the scanned tasks
sorted ascending by size; the upload direction is not two-phase:
`_process_directory` transfers each directory's files immediately
after scanning that directory and before scanning later directories,
in walk order without size sorting. -/
theorem scan_then_transfer_policy (now : Int) (remote : List RemoteEntry)
    (lb : FileMap) (okOf : DlTask → Bool) (ts : List DlTask)
    (m : FileMap) (st : SyncStats) (d : LocalDir) (ds : List LocalDir)
    (hd : d.ensure = EnsureOutcome.existed) :
    ((export_run now remote lb okOf).events =
        remote.map (fun e => Ev.scanFile e.path) ++
          (run_download_tasks now okOf []
            (sort_download_tasks (scan_download_tasks [] remote).1)).2.2.2 ∧
      (∀ e ∈ remote.map (fun e => Ev.scanFile e.path), e.isTransfer = false) ∧
      (∀ e ∈ (run_download_tasks now okOf []
          (sort_download_tasks (scan_download_tasks [] remote).1)).2.2.2,
        e.isTransfer = true)) ∧
    ((sort_download_tasks ts).Pairwise (fun a b => a.size ≤ b.size) ∧
      (sort_download_tasks ts).Perm ts) ∧
    ((process_directory now m st (d :: ds)).2.2 =
        Ev.scanDir d.remotePath ::
          ((process_files now m st d.remotePath d.files).2.2 ++
            (process_directory now (process_files now m st d.remotePath d.files).1
              (process_files now m st d.remotePath d.files).2.1 ds).2.2) ∧
      (∀ e ∈ (process_files now m st d.remotePath d.files).2.2,
        e.isTransfer = true)) := by
  refine ⟨⟨rfl, ?_, run_download_tasks_events_transfer now okOf _ []⟩,
    sort_download_tasks_sorted ts, ?_, ?_⟩
  · intro e he
    simp only [List.mem_map] at he
    obtain ⟨a, _, rfl⟩ := he
    rfl
  · simp [process_directory, hd]
  · intro e he
    exact runTasks_events_transfer now d.remotePath _ m e he

theorem scan_then_transfer_policy_witness :
    ((export_run 5 cexRemote1 [] okAll).events =
        cexRemote1.map (fun e => Ev.scanFile e.path) ++
          (run_download_tasks 5 okAll []
            (sort_download_tasks (scan_download_tasks [] cexRemote1).1)).2.2.2 ∧
      (∀ e ∈ cexRemote1.map (fun e => Ev.scanFile e.path), e.isTransfer = false) ∧
      (∀ e ∈ (run_download_tasks 5 okAll []
          (sort_download_tasks (scan_download_tasks [] cexRemote1).1)).2.2.2,
        e.isTransfer = true)) ∧
    ((sort_download_tasks []).Pairwise (fun a b => a.size ≤ b.size) ∧
      (sort_download_tasks []).Perm []) ∧
    ((process_directory 5 [] stats0 [wD1]).2.2 =
        Ev.scanDir wD1.remotePath ::
          ((process_files 5 [] stats0 wD1.remotePath wD1.files).2.2 ++
            (process_directory 5 (process_files 5 [] stats0 wD1.remotePath wD1.files).1
              (process_files 5 [] stats0 wD1.remotePath wD1.files).2.1 []).2.2) ∧
      (∀ e ∈ (process_files 5 [] stats0 wD1.remotePath wD1.files).2.2,
        e.isTransfer = true)) :=
  scan_then_transfer_policy 5 cexRemote1 [] okAll [] [] stats0 wD1 [] rfl

theorem isTransfer_not_isDelete (e : Ev) (h : e.isTransfer = true) :
    e.isDelete = false := by
  cases e <;> simp_all [Ev.isTransfer, Ev.isDelete]

mutual
theorem purgeNode_events_delete (base : String) : ∀ (n : RNode),
    ∀ e ∈ (purgeNode base n).2.2, e.isDelete = true
  | .file nm mt fd => by
    intro e he
    cases fd <;> simp [purgeNode] at he
    subst he; rfl
  | .dir nm cs fd => by
    intro e he
    have ih := purgeForest_events_delete (joinPath base nm) cs
    rcases hpf : purgeForest (joinPath base nm) cs with ⟨cs', ok, evs⟩
    have ih' : ∀ x ∈ evs, Ev.isDelete x = true := by
      intro x hx
      exact ih x (by rw [hpf]; exact hx)
    simp only [purgeNode, hpf] at he
    cases ok
    · simp only at he
      exact ih' e he
    · cases fd
      · simp only [Bool.false_eq_true, reduceIte] at he
        rcases List.mem_append.mp he with h | h
        · exact ih' e h
        · rw [List.mem_singleton.mp h]; rfl
      · simp only [reduceIte] at he
        exact ih' e he
theorem purgeForest_events_delete (base : String) : ∀ (f : RForest),
    ∀ e ∈ (purgeForest base f).2.2, e.isDelete = true
  | .nil => by intro e he; simp [purgeForest] at he
  | .cons x xs => by
    intro e he
    have ihn := purgeNode_events_delete base x
    have ihf := purgeForest_events_delete base xs
    rcases hpn : purgeNode base x with ⟨x', ok, evs⟩
    have ihn' : ∀ y ∈ evs, Ev.isDelete y = true := by
      intro y hy
      exact ihn y (by rw [hpn]; exact hy)
    simp only [purgeForest, hpn] at he
    cases x'
    · rcases List.mem_append.mp he with h | h
      · exact ihn' e h
      · exact ihf e h
    · simp only at he
      exact ihn' e he
end

theorem process_directory_no_delete (now : Int) (dirs : List LocalDir) :
    ∀ (m : FileMap) (st : SyncStats),
      ∀ e ∈ (process_directory now m st dirs).2.2, e.isDelete = false := by
  induction dirs with
  | nil => intro m st e he; simp [process_directory] at he
  | cons d ds ih =>
    intro m st e he
    cases hens : d.ensure <;> simp [process_directory, hens] at he
    · rcases he with rfl | he | he
      · rfl
      · exact isTransfer_not_isDelete e
          (runTasks_events_transfer now d.remotePath _ m e he)
      · exact ih _ _ e he
    · rcases he with rfl | he | he
      · rfl
      · exact isTransfer_not_isDelete e
          (runTasks_events_transfer now d.remotePath _ m e he)
      · exact ih _ _ e he
    · rcases he with rfl | he
      · rfl
      · exact ih _ _ e he

/-- C8: the destination subtree is recursively deleted only when the
caller passes `purge_remote` (the source default is `False`): a run
without it performs no deletion at all.  When the purge is requested
and succeeds, the event trace is all deletions followed by the upload
phase, which deletes nothing — the purge completes before any transfer
begins.  When any deletion fails, `_purge_remote_dir` re-raises, the
surrounding `except` returns `False` before anything is uploaded, and
the remote is left in the partially purged state (entries already
removed are not restored). -/
theorem purge_policy (now : Int) (base : String) (dirs : List LocalDir)
    (tree1 pf : RForest) (evs1 : List Ev) (tree2 : RForest) (evs2 : List Ev)
    (hfail : purgeForest base tree1 = (pf, false, evs1))
    (hok : purgeForest base tree2 = (RForest.nil, true, evs2)) :
    (∀ (re : Bool) (t : RForest),
      ∀ e ∈ (import_website_run now re base t dirs false).events,
        e.isDelete = false) ∧
    ((import_website_run now true base tree2 dirs true).events =
        evs2 ++ (process_directory now [] stats0 dirs).2.2 ∧
      (∀ e ∈ evs2, e.isDelete = true) ∧
      (∀ e ∈ (process_directory now [] stats0 dirs).2.2, e.isDelete = false)) ∧
    (import_website_run now true base tree1 dirs true =
        ⟨false, stats0, evs1, flattenForest base pf⟩ ∧
      (∀ e ∈ evs1, e.isDelete = true)) := by
  refine ⟨?_, ⟨?_, ?_, process_directory_no_delete now dirs [] stats0⟩, ?_, ?_⟩
  · intro re t e he
    cases re <;> simp only [import_website_run, Bool.false_eq_true, Bool.true_eq_false,
        if_false, if_true, reduceIte] at he <;>
      exact process_directory_no_delete now dirs _ _ e he
  · simp [import_website_run, hok]
  · have h := purgeForest_events_delete base tree2
    rw [hok] at h
    exact h
  · simp [import_website_run, hfail]
  · have h := purgeForest_events_delete base tree1
    rw [hfail] at h
    exact h

theorem purge_policy_witness :
    (∀ (re : Bool) (t : RForest),
      ∀ e ∈ (import_website_run 5 re "h" t wDirs false).events,
        e.isDelete = false) ∧
    ((import_website_run 5 true "h" wTree2 wDirs true).events =
        [Ev.deleteFile "h/x"] ++ (process_directory 5 [] stats0 wDirs).2.2 ∧
      (∀ e ∈ [Ev.deleteFile "h/x"], e.isDelete = true) ∧
      (∀ e ∈ (process_directory 5 [] stats0 wDirs).2.2, e.isDelete = false)) ∧
    (import_website_run 5 true "h" wTree1 wDirs true =
        ⟨false, stats0, [Ev.deleteFile "h/a"],
          flattenForest "h"
            (.cons (.file "b" 0 true) (.cons (.file "c" 0 false) .nil))⟩ ∧
      (∀ e ∈ [Ev.deleteFile "h/a"], e.isDelete = true)) :=
  purge_policy 5 "h" wDirs wTree1
    (.cons (.file "b" 0 true) (.cons (.file "c" 0 false) .nil))
    [Ev.deleteFile "h/a"] wTree2 [Ev.deleteFile "h/x"] rfl rfl

/-! ### Remote-map lemmas for the idempotence argument -/

theorem mapLookup_insert (m : FileMap) (k key : String) (v : Int) :
    mapLookup (mapInsert m k v) key = if key = k then some v else mapLookup m key := rfl

/-- Uploading only ever writes entries with mtime `now`: any key of
the map after `runTasks` holds its old value or `now`. -/
theorem runTasks_lookup_or (now : Int) (dp : String) (ts : List LocalFile) :
    ∀ (m : FileMap) (k : String),
      mapLookup (runTasks now m dp ts).1 k = mapLookup m k ∨
      mapLookup (runTasks now m dp ts).1 k = some now := by
  induction ts with
  | nil => intro m k; left; rfl
  | cons f fs ih =>
    intro m k
    cases hu : f.uploadOk <;> simp only [runTasks, hu, Bool.false_eq_true, if_false,
      if_true, reduceIte]
    · exact ih m k
    · rcases ih (mapInsert m (joinPath dp f.name) now) k with h | h
      · rw [mapLookup_insert] at h
        by_cases hk : k = joinPath dp f.name
        · right; rw [h, if_pos hk]
        · left; rw [h, if_neg hk]
      · right; exact h

theorem process_directory_lookup_or (now : Int) (dirs : List LocalDir) :
    ∀ (m : FileMap) (st : SyncStats) (k : String),
      mapLookup (process_directory now m st dirs).1 k = mapLookup m k ∨
      mapLookup (process_directory now m st dirs).1 k = some now := by
  induction dirs with
  | nil => intro m st k; left; rfl
  | cons d ds ih =>
    intro m st k
    cases hens : d.ensure <;> simp only [process_directory, hens]
    · rcases ih (process_files now m st d.remotePath d.files).1
        (process_files now m st d.remotePath d.files).2.1 k with h | h
      · rcases runTasks_lookup_or now d.remotePath
          (buildTasks m d.remotePath d.files).1 m k with h2 | h2
        · left; rw [h]; exact h2
        · right; rw [h]; exact h2
      · right; exact h
    · rcases ih
        (process_files now m { st with dirs_created := st.dirs_created + 1 }
          d.remotePath d.files).1
        (process_files now m { st with dirs_created := st.dirs_created + 1 }
          d.remotePath d.files).2.1 k with h | h
      · rcases runTasks_lookup_or now d.remotePath
          (buildTasks m d.remotePath d.files).1 m k with h2 | h2
        · left; rw [h]; exact h2
        · right; rw [h]; exact h2
      · right; exact h
    · exact ih m st k

theorem buildTasks_subset (m : FileMap) (dp : String) (fs : List LocalFile) :
    ∀ f ∈ (buildTasks m dp fs).1, f ∈ fs := by
  induction fs with
  | nil => intro f hf; exact absurd hf (List.not_mem_nil f)
  | cons g gs ih =>
    intro f hf
    cases hp : g.prepOk <;>
      simp only [buildTasks, hp, Bool.true_eq_false, if_false, if_true,
        reduceIte] at hf
    · exact List.mem_cons_of_mem g (ih f hf)
    · rcases hsp : should_upload_file
          (mapLookup m (joinPath dp g.name)).isSome (some g.mtime)
          (mapLookup m (joinPath dp g.name)) with _ | _ <;>
        rw [hsp] at hf <;> simp only [Bool.false_eq_true, if_false, if_true,
          reduceIte] at hf
      · exact List.mem_cons_of_mem g (ih f hf)
      · rcases List.mem_cons.mp hf with rfl | hf'
        · exact List.mem_cons_self f gs
        · exact List.mem_cons_of_mem g (ih f hf')

theorem buildTasks_cons_mem (m : FileMap) (dp : String) (g : LocalFile)
    (gs : List LocalFile) (f : LocalFile) (h : f ∈ (buildTasks m dp gs).1) :
    f ∈ (buildTasks m dp (g :: gs)).1 := by
  cases hp : g.prepOk <;>
    simp only [buildTasks, hp, Bool.true_eq_false, if_false, if_true, reduceIte]
  · exact h
  · split
    · exact List.mem_cons_of_mem g h
    · exact h

/-- Every file of a directory that survives preparation is either put
on the upload-task list or its skip decision was `false` against the
directory-entry remote state. -/
theorem buildTasks_mem_or (m : FileMap) (dp : String) (fs : List LocalFile)
    (f : LocalFile) (hf : f ∈ fs) (hp : f.prepOk = true) :
    f ∈ (buildTasks m dp fs).1 ∨
      should_upload_file (mapLookup m (joinPath dp f.name)).isSome (some f.mtime)
        (mapLookup m (joinPath dp f.name)) = false := by
  induction fs with
  | nil => exact absurd hf (List.not_mem_nil f)
  | cons g gs ih =>
    rcases List.mem_cons.mp hf with rfl | hf'
    · rcases hsp : should_upload_file
          (mapLookup m (joinPath dp f.name)).isSome (some f.mtime)
          (mapLookup m (joinPath dp f.name)) with _ | _
      · right; rfl
      · left
        simp only [buildTasks, hp, Bool.true_eq_false, if_false, reduceIte, hsp,
          if_true]
        exact List.mem_cons_self f (buildTasks m dp gs).1
    · rcases ih hf' with h | h
      · left; exact buildTasks_cons_mem m dp g gs f h
      · right; exact h

theorem runTasks_lookup_mem (now : Int) (dp : String) (ts : List LocalFile) :
    ∀ (m : FileMap) (f : LocalFile), f ∈ ts → (∀ g ∈ ts, g.uploadOk = true) →
      mapLookup (runTasks now m dp ts).1 (joinPath dp f.name) = some now := by
  induction ts with
  | nil => intro m f hf _; exact absurd hf (List.not_mem_nil f)
  | cons g gs ih =>
    intro m f hf hok
    have hg : g.uploadOk = true := hok g (List.mem_cons_self g gs)
    simp only [runTasks, hg, if_true, reduceIte]
    rcases List.mem_cons.mp hf with rfl | hf'
    · rcases runTasks_lookup_or now dp gs (mapInsert m (joinPath dp f.name) now)
        (joinPath dp f.name) with h | h
      · rw [h, mapLookup_insert, if_pos rfl]
      · exact h
    · exact ih _ f hf' (fun x hx => hok x (List.mem_cons_of_mem g hx))

theorem should_upload_false_of_covered (m : FileMap) (k : String) (mt v : Int)
    (hv : mapLookup m k = some v) (hle : mt ≤ v) :
    should_upload_file (mapLookup m k).isSome (some mt) (mapLookup m k) = false := by
  rw [hv]
  simp [should_upload_file]
  omega

theorem covered_of_should_upload_false (m : FileMap) (k : String) (mt : Int)
    (h : should_upload_file (mapLookup m k).isSome (some mt) (mapLookup m k) = false) :
    ∃ v, mapLookup m k = some v ∧ mt ≤ v := by
  cases hm : mapLookup m k with
  | none => rw [hm] at h; simp [should_upload_file] at h
  | some v =>
    rw [hm] at h
    simp only [should_upload_file, Option.isSome_some, Bool.true_eq_false, if_false,
      reduceIte] at h
    split at h
    · exact ⟨v, rfl, by omega⟩
    · exact absurd h (by simp)

theorem process_files_covered (now : Int) (m : FileMap) (st : SyncStats)
    (dp : String) (files : List LocalFile) (f : LocalFile)
    (hf : f ∈ files) (hp : f.prepOk = true)
    (hok : ∀ g ∈ files, g.uploadOk = true) (hmt : f.mtime ≤ now) :
    ∃ v, mapLookup (process_files now m st dp files).1 (joinPath dp f.name) =
      some v ∧ f.mtime ≤ v := by
  rcases buildTasks_mem_or m dp files f hf hp with hmem | hdec
  · exact ⟨now,
      runTasks_lookup_mem now dp (buildTasks m dp files).1 m f hmem
        (fun g hg => hok g (buildTasks_subset m dp files g hg)), hmt⟩
  · obtain ⟨v, hv, hle⟩ := covered_of_should_upload_false m (joinPath dp f.name)
      f.mtime hdec
    rcases runTasks_lookup_or now dp (buildTasks m dp files).1 m
      (joinPath dp f.name) with h | h
    · exact ⟨v, h.trans hv, hle⟩
    · exact ⟨now, h, hmt⟩

/-- After a smooth run every walked file is present remotely with an
mtime at least its local mtime. -/
theorem process_directory_covered (now : Int) (dirs : List LocalDir) :
    ∀ (m : FileMap) (st : SyncStats),
      allSmooth dirs →
      (∀ d ∈ dirs, ∀ f ∈ d.files, f.mtime ≤ now) →
      ∀ d ∈ dirs, ∀ f ∈ d.files,
        ∃ v, mapLookup (process_directory now m st dirs).1
          (joinPath d.remotePath f.name) = some v ∧ f.mtime ≤ v := by
  induction dirs with
  | nil => intro m st _ _ d hd; exact absurd hd (List.not_mem_nil d)
  | cons d0 ds ih =>
    intro m st hsm hmt d hd f hf
    have h0 := hsm d0 (List.mem_cons_self d0 ds)
    have hsm' : allSmooth ds := fun x hx => hsm x (List.mem_cons_of_mem d0 hx)
    have hmt' : ∀ x ∈ ds, ∀ g ∈ x.files, g.mtime ≤ now :=
      fun x hx => hmt x (List.mem_cons_of_mem d0 hx)
    rcases List.mem_cons.mp hd with rfl | hd'
    · have hmtf : f.mtime ≤ now := hmt d (List.mem_cons_self d ds) f hf
      have hcov := process_files_covered now m st d.remotePath d.files f hf
        (h0.2 f hf).1 (fun g hg => (h0.2 g hg).2) hmtf
      obtain ⟨v, hv, hle⟩ := hcov
      cases hens : d.ensure with
      | efailed => exact absurd hens h0.1
      | existed =>
        simp only [process_directory, hens]
        rcases process_directory_lookup_or now ds
          (process_files now m st d.remotePath d.files).1
          (process_files now m st d.remotePath d.files).2.1
          (joinPath d.remotePath f.name) with h | h
        · exact ⟨v, h.trans hv, hle⟩
        · exact ⟨now, h, hmtf⟩
      | created =>
        simp only [process_directory, hens]
        have hcov2 := process_files_covered now m
          { st with dirs_created := st.dirs_created + 1 } d.remotePath d.files f hf
          (h0.2 f hf).1 (fun g hg => (h0.2 g hg).2) hmtf
        obtain ⟨v2, hv2, hle2⟩ := hcov2
        rcases process_directory_lookup_or now ds
          (process_files now m { st with dirs_created := st.dirs_created + 1 }
            d.remotePath d.files).1
          (process_files now m { st with dirs_created := st.dirs_created + 1 }
            d.remotePath d.files).2.1
          (joinPath d.remotePath f.name) with h | h
        · exact ⟨v2, h.trans hv2, hle2⟩
        · exact ⟨now, h, hmtf⟩
    · cases hens : d0.ensure with
      | efailed =>
        simp only [process_directory, hens]
        exact ih m st hsm' hmt' d hd' f hf
      | existed =>
        simp only [process_directory, hens]
        exact ih _ _ hsm' hmt' d hd' f hf
      | created =>
        simp only [process_directory, hens]
        exact ih _ _ hsm' hmt' d hd' f hf

/-- If every file of the directory is already covered remotely, the
first `_process_files` loop skips them all and builds no task. -/
theorem buildTasks_all_skip (m : FileMap) (dp : String) (fs : List LocalFile)
    (hp : ∀ f ∈ fs, f.prepOk = true)
    (hcov : ∀ f ∈ fs, ∃ v, mapLookup m (joinPath dp f.name) = some v ∧
      f.mtime ≤ v) :
    buildTasks m dp fs = ([], fs.length) := by
  induction fs with
  | nil => rfl
  | cons f fs ih =>
    obtain ⟨v, hv, hle⟩ := hcov f (List.mem_cons_self f fs)
    have hdec := should_upload_false_of_covered m (joinPath dp f.name) f.mtime v hv hle
    have hih := ih (fun g hg => hp g (List.mem_cons_of_mem f hg))
      (fun g hg => hcov g (List.mem_cons_of_mem f hg))
    simp [buildTasks, hp f (List.mem_cons_self f fs), hdec, hih]

theorem process_files_all_skip (now : Int) (m : FileMap) (st : SyncStats)
    (dp : String) (fs : List LocalFile)
    (hp : ∀ f ∈ fs, f.prepOk = true)
    (hcov : ∀ f ∈ fs, ∃ v, mapLookup m (joinPath dp f.name) = some v ∧
      f.mtime ≤ v) :
    process_files now m st dp fs =
      (m, { st with skipped := st.skipped + fs.length }, []) := by
  simp [process_files, buildTasks_all_skip m dp fs hp hcov, runTasks]

theorem process_directory_all_skip (now : Int) (dirs : List LocalDir) :
    ∀ (m : FileMap) (st : SyncStats),
      allSmooth dirs →
      (∀ d ∈ dirs, ∀ f ∈ d.files,
        ∃ v, mapLookup m (joinPath d.remotePath f.name) = some v ∧ f.mtime ≤ v) →
      (process_directory now m st dirs).1 = m ∧
      (process_directory now m st dirs).2.1.uploaded = st.uploaded ∧
      (process_directory now m st dirs).2.1.failed = st.failed ∧
      (process_directory now m st dirs).2.1.skipped = st.skipped + totalFiles dirs ∧
      (∀ e ∈ (process_directory now m st dirs).2.2, e.isTransfer = false) := by
  induction dirs with
  | nil =>
    intro m st _ _
    exact ⟨rfl, rfl, rfl, by simp [process_directory, totalFiles], by
      intro e he; simp [process_directory] at he⟩
  | cons d ds ih =>
    intro m st hsm hcov
    have h0 := hsm d (List.mem_cons_self d ds)
    have hsm' : allSmooth ds := fun x hx => hsm x (List.mem_cons_of_mem d hx)
    have hcov0 := hcov d (List.mem_cons_self d ds)
    have hcov' : ∀ x ∈ ds, ∀ f ∈ x.files,
        ∃ v, mapLookup m (joinPath x.remotePath f.name) = some v ∧ f.mtime ≤ v :=
      fun x hx => hcov x (List.mem_cons_of_mem d hx)
    have hpf := process_files_all_skip now m st d.remotePath d.files
      (fun f hf => (h0.2 f hf).1) hcov0
    cases hens : d.ensure with
    | efailed => exact absurd hens h0.1
    | existed =>
      have hih := ih m { st with skipped := st.skipped + d.files.length } hsm' hcov'
      simp only [process_directory, hens, hpf]
      refine ⟨hih.1, by simpa using hih.2.1, by simpa using hih.2.2.1, ?_, ?_⟩
      · have hsk := hih.2.2.2.1
        simp at hsk
        simp only [totalFiles]
        omega
      · intro e he
        simp only [List.mem_cons, List.nil_append] at he
        rcases he with rfl | he
        · rfl
        · exact hih.2.2.2.2 e he
    | created =>
      have hpf2 := process_files_all_skip now m
        { st with dirs_created := st.dirs_created + 1 } d.remotePath d.files
        (fun f hf => (h0.2 f hf).1) hcov0
      simp only [SyncStats.mk.injEq] at hpf2
      have hih := ih m
        ⟨st.uploaded, st.skipped + d.files.length, st.failed, st.dirs_created + 1⟩
        hsm' hcov'
      simp only [process_directory, hens, hpf2]
      refine ⟨hih.1, hih.2.1, hih.2.2.1, ?_, ?_⟩
      · have hsk := hih.2.2.2.1
        simp at hsk
        simp only [totalFiles]
        omega
      · intro e he
        simp only [List.mem_cons, List.nil_append] at he
        rcases he with rfl | he
        · rfl
        · exact hih.2.2.2.2 e he

unseal List.merge List.mergeSort in
/-- C3 counterexample: the download direction is not idempotent
because `export_website` wipes the local destination at the start of
every run.  One remote file with mtime 0: the first export downloads
it (local mtime 10 ≥ 0, so the freshness check alone would skip it on
a rescan — third conjunct), yet the second run transfers it again
because the destination was deleted first. -/
theorem second_export_retransfers_cex :
    (export_run 10 cexRemote1 [] okAll).localAfter = [("idx", 10)] ∧
    (export_run 20 cexRemote1
      (export_run 10 cexRemote1 [] okAll).localAfter okAll).transferred = 1 ∧
    exporter_update_file
      (mapLookup (export_run 10 cexRemote1 [] okAll).localAfter "idx") 0 = false :=
  ⟨rfl, rfl, rfl⟩

/-- C3 amended: idempotence holds for the upload direction only: if a
first smooth upload run at time `now1` (no preparation, directory or
upload failures; all local mtimes ≤ `now1`) produced the remote state
that a second run starts from, the second run uploads nothing — every
file is skipped, no transfer event occurs, and the run reports
success.  The download direction re-transfers everything on a second
run because the destination is wiped first. -/
theorem second_sync_upload_idempotent (now1 now2 : Int) (base : String)
    (tree1 tree2 : RForest) (dirs : List LocalDir)
    (hsm : allSmooth dirs)
    (hmt : ∀ d ∈ dirs, ∀ f ∈ d.files, f.mtime ≤ now1)
    (hflat : flattenForest base tree2 =
      (import_website_run now1 true base tree1 dirs false).remote) :
    (import_website_run now2 true base tree2 dirs false).stats.uploaded = 0 ∧
    (import_website_run now2 true base tree2 dirs false).stats.failed = 0 ∧
    (import_website_run now2 true base tree2 dirs false).stats.skipped =
      totalFiles dirs ∧
    (import_website_run now2 true base tree2 dirs false).success = true ∧
    (∀ e ∈ (import_website_run now2 true base tree2 dirs false).events,
      e.isTransfer = false) := by
  have hrem : (import_website_run now1 true base tree1 dirs false).remote =
      (process_directory now1 (flattenForest base tree1) stats0 dirs).1 := by
    simp [import_website_run]
  rw [hrem] at hflat
  have hcov := process_directory_covered now1 dirs (flattenForest base tree1)
    stats0 hsm hmt
  have hcov2 : ∀ d ∈ dirs, ∀ f ∈ d.files,
      ∃ v, mapLookup (flattenForest base tree2) (joinPath d.remotePath f.name) =
        some v ∧ f.mtime ≤ v := by
    intro d hd f hf
    obtain ⟨v, hv, hle⟩ := hcov d hd f hf
    exact ⟨v, by rw [hflat]; exact hv, hle⟩
  have hmain := process_directory_all_skip now2 dirs (flattenForest base tree2)
    stats0 hsm hcov2
  have hr2 : import_website_run now2 true base tree2 dirs false =
      ⟨(process_directory now2 (flattenForest base tree2) stats0 dirs).2.1.failed
          == 0,
        (process_directory now2 (flattenForest base tree2) stats0 dirs).2.1,
        (process_directory now2 (flattenForest base tree2) stats0 dirs).2.2,
        (process_directory now2 (flattenForest base tree2) stats0 dirs).1⟩ := by
    simp [import_website_run]
  rw [hr2]
  refine ⟨by simpa [stats0] using hmain.2.1, by simpa [stats0] using hmain.2.2.1,
    ?_, ?_, hmain.2.2.2.2⟩
  · have := hmain.2.2.2.1
    simpa [stats0] using this
  · have hf0 := hmain.2.2.1
    simp [stats0] at hf0 ⊢
    simp [hf0]

theorem second_sync_upload_idempotent_witness :
    ((import_website_run 7 true "h" wTree3 wDirs false).stats.uploaded = 0 ∧
      (import_website_run 7 true "h" wTree3 wDirs false).stats.failed = 0 ∧
      (import_website_run 7 true "h" wTree3 wDirs false).stats.skipped =
        totalFiles wDirs ∧
      (import_website_run 7 true "h" wTree3 wDirs false).success = true ∧
      (∀ e ∈ (import_website_run 7 true "h" wTree3 wDirs false).events,
        e.isTransfer = false)) :=
  second_sync_upload_idempotent 5 7 "h" RForest.nil wTree3 wDirs
    (by decide) (by decide) (by decide)

end FtpSync
